import Mathlib

/-!
Verification development for the configuration-resolution core of the
lucet sandbox compiler (`lucetc/lucetc/options.rs`) and its interface
code-generation build-verification pipeline
(`lucet-idl/lucet-idl-test/src/compile.rs`).

The Rust code is shallowly embedded: pure functions become Lean functions,
fallible Rust code returning `Result` becomes a `RunResult` value, and a
Rust abort (`unreachable`, a failed `expect` or assert) is modelled by the
dedicated `panicked` outcome so that recoverable configuration errors and
contract violations stay distinguishable. External effects (process
invocation, the filesystem) are represented by an explicit environment
value recording the result of each external step, and the build pipeline
additionally returns the ordered trace of its observable actions.
-/

namespace LucetOpts

/-- Embedding of the lucetc library struct `SpecificFeatures`: one boolean
per known CPU feature flag, exactly the nine flags handled by
`cpu_features_from_args` in `options.rs` lines 59-70. -/
structure SpecificFeatures where
  has_sse3 : Bool
  has_ssse3 : Bool
  has_sse41 : Bool
  has_sse42 : Bool
  has_popcnt : Bool
  has_avx : Bool
  has_bmi1 : Bool
  has_bmi2 : Bool
  has_lzcnt : Bool
deriving DecidableEq

/-- Embedding of the lucetc library enum `TargetCpu`: the fixed set of
microarchitecture presets matched by `cpu_features_from_args`
(options.rs lines 38-48). -/
inductive TargetCpu where
  | Baseline
  | Nehalem
  | Haswell
  | Broadwell
  | Skylake
  | Cannonlake
  | Icelake
  | Znver1
deriving DecidableEq

/-- Embedding of the lucetc library enum `CpuFeatures`: defer to host
probing, or use an explicit fully resolved feature set. -/
inductive CpuFeatures where
  | DetectCpuid
  | Specify (sfs : SpecificFeatures)
deriving DecidableEq

/-- Outcome of embedded fallible Rust code: `ok` for `Ok`, `err` for a
returned error value (a recoverable configuration error), and `panicked`
for an abort (`unreachable` or an explicit panic), a contract violation
that does not return. -/
inductive RunResult (α : Type) where
  | ok : α → RunResult α
  | err : String → RunResult α
  | panicked : String → RunResult α
deriving DecidableEq

/-- Sequencing of embedded fallible code; mirrors the `?` operator plus
panic propagation. -/
def RunResult.bind {α β : Type} : RunResult α → (α → RunResult β) → RunResult β
  | .ok a, f => f a
  | .err e, _ => .err e
  | .panicked m, _ => .panicked m

/-- True exactly on `ok`. -/
def RunResult.isOk {α : Type} : RunResult α → Bool
  | .ok _ => true
  | _ => false

/-- True exactly on `err`. -/
def RunResult.isErr {α : Type} : RunResult α → Bool
  | .err _ => true
  | _ => false

/-- Embedding of Rust `str::to_lowercase` as used on preset names
(options.rs line 38); for the ASCII preset names compared against it,
per-character lowercasing agrees with Rust's Unicode lowercasing. -/
def toLowercase (s : String) : String := String.mk (s.data.map Char.toLower)

/-- The preset-name match inside `cpu_features_from_args` (options.rs
lines 36-49): lowercase the supplied name, map the eight known preset
names to `TargetCpu` values, and report `unsupported CPU: ` followed by
the offending name for any other value; an absent name means
`TargetCpu::Baseline`. -/
def resolveTargetCpu : Option String → RunResult TargetCpu
  | none => .ok TargetCpu.Baseline
  | some s =>
    match toLowercase s with
    | "baseline" => .ok TargetCpu.Baseline
    | "nehalem" => .ok TargetCpu.Nehalem
    | "haswell" => .ok TargetCpu.Haswell
    | "broadwell" => .ok TargetCpu.Broadwell
    | "skylake" => .ok TargetCpu.Skylake
    | "cannonlake" => .ok TargetCpu.Cannonlake
    | "icelake" => .ok TargetCpu.Icelake
    | "znver1" => .ok TargetCpu.Znver1
    | _ => .err ("unsupported CPU: " ++ s)

/-- The feature-name match in the token-application loop of
`cpu_features_from_args` (options.rs lines 59-70): set the named flag to
`b`, or hit the `unreachable` branch for an unknown name. `f` is the
whole token, used only in the abort message exactly as in the source. -/
def applyNamed (sfs : SpecificFeatures) (name : String) (b : Bool) (f : String) :
    RunResult SpecificFeatures :=
  match name with
  | "sse3" => .ok { sfs with has_sse3 := b }
  | "ssse3" => .ok { sfs with has_ssse3 := b }
  | "sse41" => .ok { sfs with has_sse41 := b }
  | "sse42" => .ok { sfs with has_sse42 := b }
  | "popcnt" => .ok { sfs with has_popcnt := b }
  | "avx" => .ok { sfs with has_avx := b }
  | "bmi1" => .ok { sfs with has_bmi1 := b }
  | "bmi2" => .ok { sfs with has_bmi2 := b }
  | "lzcnt" => .ok { sfs with has_lzcnt := b }
  | _ => .panicked ("invalid feature string despite passing validation: " ++ f)

/-- One iteration of the token-application loop (options.rs lines 51-71):
read the sign from the first character (`unreachable` when it is neither
a plus nor a minus sign), then apply the rest of the token as a feature
name. The byte slice `&f[1..]` of the source is the character tail here,
since both accepted sign characters are single-byte. -/
def applyFeature (sfs : SpecificFeatures) (f : String) : RunResult SpecificFeatures :=
  match f.data with
  | '+' :: rest => applyNamed sfs (String.mk rest) true f
  | '-' :: rest => applyNamed sfs (String.mk rest) false f
  | _ => .panicked ("invalid feature string despite passing validation: " ++ f)

/-- The whole token-application loop: apply each override token in input
order, stopping at the first abort. -/
def applyFeatures (sfs : SpecificFeatures) : List String → RunResult SpecificFeatures
  | [] => .ok sfs
  | f :: rest => (applyFeature sfs f).bind (fun sfs2 => applyFeatures sfs2 rest)

/-- Embedding of `cpu_features_from_args` (options.rs lines 32-74).
The lucetc library conversion from `TargetCpu` to its baseline
`SpecificFeatures` (the per-preset default table) is declared outside the
excerpt, so the function is parameterized by that conversion `cpuInto`;
every theorem about it below holds for an arbitrary baseline table. -/
def cpu_features_from_args (cpuInto : TargetCpu → SpecificFeatures)
    (cpu : Option String) (features : List String) : RunResult CpuFeatures :=
  if cpu.isNone && features.length == 0 then
    .ok CpuFeatures.DetectCpuid
  else
    (resolveTargetCpu cpu).bind (fun tc =>
      (applyFeatures (cpuInto tc) features).bind (fun sfs =>
        .ok (CpuFeatures.Specify sfs)))

/-- Specification-side view: the fixed feature set as an enumeration. -/
inductive Feature where
  | sse3
  | ssse3
  | sse41
  | sse42
  | popcnt
  | avx
  | bmi1
  | bmi2
  | lzcnt
deriving DecidableEq

/-- The feature named by a string, when the string is one of the nine
known feature names. -/
def featureOfName : String → Option Feature
  | "sse3" => some Feature.sse3
  | "ssse3" => some Feature.ssse3
  | "sse41" => some Feature.sse41
  | "sse42" => some Feature.sse42
  | "popcnt" => some Feature.popcnt
  | "avx" => some Feature.avx
  | "bmi1" => some Feature.bmi1
  | "bmi2" => some Feature.bmi2
  | "lzcnt" => some Feature.lzcnt
  | _ => none

/-- The canonical name of each feature. -/
def nameOf : Feature → String
  | Feature.sse3 => "sse3"
  | Feature.ssse3 => "ssse3"
  | Feature.sse41 => "sse41"
  | Feature.sse42 => "sse42"
  | Feature.popcnt => "popcnt"
  | Feature.avx => "avx"
  | Feature.bmi1 => "bmi1"
  | Feature.bmi2 => "bmi2"
  | Feature.lzcnt => "lzcnt"

/-- Set one named flag of a feature set. -/
def setFeature (sfs : SpecificFeatures) : Feature → Bool → SpecificFeatures
  | Feature.sse3, b => { sfs with has_sse3 := b }
  | Feature.ssse3, b => { sfs with has_ssse3 := b }
  | Feature.sse41, b => { sfs with has_sse41 := b }
  | Feature.sse42, b => { sfs with has_sse42 := b }
  | Feature.popcnt, b => { sfs with has_popcnt := b }
  | Feature.avx, b => { sfs with has_avx := b }
  | Feature.bmi1, b => { sfs with has_bmi1 := b }
  | Feature.bmi2, b => { sfs with has_bmi2 := b }
  | Feature.lzcnt, b => { sfs with has_lzcnt := b }

/-- Parse an override token into its sign and feature, when well formed:
a leading plus or minus sign followed by a known feature name. -/
def parseToken (t : String) : Option (Bool × Feature) :=
  match t.data with
  | '+' :: rest => (featureOfName (String.mk rest)).map (fun ft => (true, ft))
  | '-' :: rest => (featureOfName (String.mk rest)).map (fun ft => (false, ft))
  | _ => none

/-- Apply one well-formed override token to a feature set (identity on a
malformed token; only used under the well-formedness precondition). -/
def applyTokenSpec (sfs : SpecificFeatures) (t : String) : SpecificFeatures :=
  match parseToken t with
  | some (b, ft) => setFeature sfs ft b
  | none => sfs

/-- The accepted preset names, lowercased. -/
def presetNames : List String :=
  ["baseline", "nehalem", "haswell", "broadwell", "skylake", "cannonlake",
   "icelake", "znver1"]

/-- The preset a valid (or absent) preset name denotes; `Baseline` both
for an absent name and as a junk value outside the valid set. -/
def presetOf : Option String → TargetCpu
  | none => TargetCpu.Baseline
  | some s =>
    match toLowercase s with
    | "baseline" => TargetCpu.Baseline
    | "nehalem" => TargetCpu.Nehalem
    | "haswell" => TargetCpu.Haswell
    | "broadwell" => TargetCpu.Broadwell
    | "skylake" => TargetCpu.Skylake
    | "cannonlake" => TargetCpu.Cannonlake
    | "icelake" => TargetCpu.Icelake
    | "znver1" => TargetCpu.Znver1
    | _ => TargetCpu.Baseline

/-- A preset argument is acceptable when absent or naming a known preset
up to lowercasing. -/
def presetOk : Option String → Prop
  | none => True
  | some s => toLowercase s ∈ presetNames

instance (cpu : Option String) : Decidable (presetOk cpu) := by
  cases cpu <;> simp [presetOk] <;> infer_instance

/-- A feature set with every flag disabled; stands in for a concrete
baseline table in concrete evaluations. -/
def allOff : SpecificFeatures :=
  ⟨false, false, false, false, false, false, false, false, false⟩

/-- Substring occurrence check, used to state what an error message
mentions. -/
def occursIn (sub hay : String) : Bool :=
  (List.range (hay.data.length + 1)).any
    (fun i => (hay.data.drop i).take sub.data.length == sub.data)

/-- Modelled from the spec: the failure cases of the external
human-readable size parser used by `parse_humansized` (options.rs
lines 13-23); the parser distinguishes a missing magnitude, an invalid
magnitude, a missing unit suffix and an unknown unit suffix. -/
inductive SizeError where
  | MissingValue
  | InvalidValue
  | MissingMultiple
  | InvalidMultiple
deriving DecidableEq

/-- Split a character list into its leading run of decimal digits and
the remainder. -/
def takeDigits : List Char → List Char × List Char
  | [] => ([], [])
  | c :: rest =>
    if c.isDigit then
      let p := takeDigits rest
      (c :: p.1, p.2)
    else ([], c :: rest)

/-- Value of a run of decimal digits. -/
def digitsToNat (ds : List Char) : Nat :=
  ds.foldl (fun acc c => acc * 10 + (c.toNat - 48)) 0

/-- Modelled from the spec: the byte multiplier of each unit suffix
accepted by the external human-readable size parser (decimal and binary
prefixes); this table is not part of the excerpt. -/
def multipleBytes : String → Option Nat
  | "B" => some 1
  | "kB" => some 1000
  | "MB" => some 1000000
  | "GB" => some 1000000000
  | "TB" => some 1000000000000
  | "KiB" => some 1024
  | "MiB" => some 1048576
  | "GiB" => some 1073741824
  | "TiB" => some 1099511627776
  | _ => none

/-- Modelled from the spec: the external human-readable size parser
behind `parse_humansized` (options.rs line 15), restricted to
integer-valued magnitudes so that byte counts stay exact. A leading
decimal magnitude may be followed by an optional single space and a unit
suffix; a bare magnitude with no suffix is the missing-multiple error
that `parse_humansized` recovers from. -/
def human_size_parse (desc : String) : Except SizeError Nat :=
  match takeDigits desc.data with
  | ([], []) => .error SizeError.MissingValue
  | ([], _ :: _) => .error SizeError.InvalidValue
  | (ds, rest) =>
    let restTrim : List Char :=
      if rest.head? = some ' ' then rest.tail else rest
    if restTrim.isEmpty then .error SizeError.MissingMultiple
    else
      match multipleBytes (String.mk restTrim) with
      | some mult => .ok (digitsToNat ds * mult)
      | none => .error SizeError.InvalidMultiple

/-- Embedding of the fallback `desc.parse::<u64>()` (options.rs line 20):
a nonempty all-digit string below 2 to the 64th power. -/
def parse_u64 (s : String) : Option Nat :=
  if s.data.isEmpty then none
  else if s.data.all Char.isDigit then
    if digitsToNat s.data < 2 ^ 64 then some (digitsToNat s.data) else none
  else none

/-- Embedding of `parse_humansized` (options.rs lines 13-23): try the
human-readable size grammar; on the missing-multiple error fall back to
a plain byte count; any other failure is a configuration error. -/
def parse_humansized (desc : String) : RunResult Nat :=
  match human_size_parse desc with
  | .ok n => .ok n
  | .error SizeError.MissingMultiple =>
    match parse_u64 desc with
    | some n => .ok n
    | none => .err ("invalid size: " ++ desc)
  | .error _ => .err ("invalid size: " ++ desc)

/-- Embedding of the `CodegenOutput` enum (options.rs lines 6-11). -/
inductive CodegenOutput where
  | Clif
  | Obj
  | SharedObj
deriving DecidableEq

/-- Embedding of the lucetc library `OptLevel` enum; its default is
`Standard`, matching the documented default optimization level. -/
inductive OptLevel where
  | None
  | Standard
  | Fast
deriving DecidableEq

/-- The argument values `Options::from_args` reads from the parsed
command line (options.rs lines 98-164): each `value_of` is an optional
string, each `values_of` a string list, each `is_present` a boolean. -/
structure ArgMatches where
  input : List String
  output : Option String
  bindings : List String
  emit : Option String
  builtins : Option String
  min_reserved_size : Option String
  max_reserved_size : Option String
  reserved_size : Option String
  guard_size : Option String
  opt_level : Option String
  target_cpu : Option String
  target_feature : List String
  keygen : Bool
  sign : Bool
  verify : Bool
  sk_path : Option String
  pk_path : Option String
  count_instructions : Bool
deriving DecidableEq

/-- Embedding of the `Options` struct (options.rs lines 76-95); paths
are represented by their strings. -/
structure Options where
  output : String
  input : List String
  codegen : CodegenOutput
  binding_files : List String
  builtins_path : Option String
  min_reserved_size : Option Nat
  max_reserved_size : Option Nat
  reserved_size : Option Nat
  guard_size : Option Nat
  opt_level : OptLevel
  cpu_features : CpuFeatures
  keygen : Bool
  sign : Bool
  verify : Bool
  pk_path : Option String
  sk_path : Option String
  count_instructions : Bool
deriving DecidableEq

/-- The `if let Some(s) = m.value_of(..) { Some(parse_humansized(s)?) }
else { None }` pattern used for each size option (options.rs
lines 123-145). -/
def parse_size_opt : Option String → RunResult (Option Nat)
  | some s => (parse_humansized s).bind (fun n => .ok (some n))
  | none => .ok none

/-- The `emit` match (options.rs lines 113-119); an unrecognized value
is an explicit panic in the source. -/
def emit_codegen : Option String → RunResult CodegenOutput
  | none => .ok CodegenOutput.SharedObj
  | some "clif" => .ok CodegenOutput.Clif
  | some "obj" => .ok CodegenOutput.Obj
  | some "so" => .ok CodegenOutput.SharedObj
  | some _ => .panicked "unknown value for emit"

/-- The `opt_level` match (options.rs lines 147-153); the absent case is
the library default, which is the standard level. -/
def opt_level_of : Option String → RunResult OptLevel
  | none => .ok OptLevel.Standard
  | some "0" => .ok OptLevel.None
  | some "1" => .ok OptLevel.Standard
  | some "2" => .ok OptLevel.Fast
  | some "fast" => .ok OptLevel.Fast
  | some _ => .panicked "unknown value for opt-level"

/-- Embedding of `Options::from_args` (options.rs lines 98-185),
following the source's evaluation order; note that the signing flags and
key paths (lines 159-164) are copied into the result without any
consistency validation. -/
def Options.from_args (cpuInto : TargetCpu → SpecificFeatures) (m : ArgMatches) :
    RunResult Options :=
  (emit_codegen m.emit).bind (fun codegen =>
  (parse_size_opt m.min_reserved_size).bind (fun min_reserved_size =>
  (parse_size_opt m.max_reserved_size).bind (fun max_reserved_size =>
  (parse_size_opt m.reserved_size).bind (fun reserved_size =>
  (parse_size_opt m.guard_size).bind (fun guard_size =>
  (opt_level_of m.opt_level).bind (fun opt_level =>
  (cpu_features_from_args cpuInto m.target_cpu m.target_feature).bind (fun cpu_features =>
  .ok { output := m.output.getD "a.out"
        input := m.input
        codegen := codegen
        binding_files := m.bindings
        builtins_path := m.builtins
        min_reserved_size := min_reserved_size
        max_reserved_size := max_reserved_size
        reserved_size := reserved_size
        guard_size := guard_size
        opt_level := opt_level
        cpu_features := cpu_features
        keygen := m.keygen
        sign := m.sign
        verify := m.verify
        pk_path := m.pk_path
        sk_path := m.sk_path
        count_instructions := m.count_instructions })))))))

/-- The effective heap layout consumed downstream. -/
structure HeapSettings where
  min_reserved_size : Nat
  max_reserved_size : Nat
  guard_size : Nat
deriving DecidableEq

/-- Modelled from the spec: how the downstream consumer (outside the
excerpt) derives the effective heap settings from the assembled options.
Each supplied size overrides the corresponding entry of the
default-settings record `defaults`, and an explicit exact reserved size
then overrides both the minimum and the maximum reserved size; the
assembled option values themselves are left untouched. -/
def effectiveHeap (defaults : HeapSettings) (o : Options) : HeapSettings :=
  let hs1 : HeapSettings :=
    { defaults with
      min_reserved_size := o.min_reserved_size.getD defaults.min_reserved_size }
  let hs2 : HeapSettings :=
    { hs1 with
      max_reserved_size := o.max_reserved_size.getD defaults.max_reserved_size }
  let hs3 : HeapSettings :=
    match o.reserved_size with
    | some r => { hs2 with min_reserved_size := r, max_reserved_size := r }
    | none => hs2
  { hs3 with guard_size := o.guard_size.getD defaults.guard_size }


/-- One observable action of a build-verification invocation
(compile.rs): workspace creation, writing the fixed driver source,
writing the generated source, invoking an external command, reading the
produced artifact, and the workspace teardown performed by the
workspace's destructor when the invocation returns or unwinds. -/
inductive Event where
  | CreatedWorkspace
  | WroteDriver
  | WroteGeneratedSource (file : String)
  | RanCommand (name : String)
  | ReadArtifact
  | DroppedWorkspace
deriving DecidableEq

/-- Final outcome of a build-verification invocation: a returned value,
or an abort with the message of the failed expectation or assertion. -/
inductive Outcome (α : Type) where
  | success : α → Outcome α
  | panicked : String → Outcome α
deriving DecidableEq

/-- Environment of one build-verification invocation: the result of each
external step. A command status of `none` means the command could not be
spawned (its `status()` call errs); `some b` means it ran and `b` tells
whether it exited successfully. -/
structure BuildEnv where
  tempdir_ok : Bool
  create_ok : Bool
  codegen_ok : Bool
  compile_status : Option Bool
  dump_status : Option Bool
  create_main_ok : Bool
  write_main_ok : Bool
  open_wasm_ok : Bool
  read_wasm : Option (List Nat)
deriving DecidableEq

/-- Embedding of `rust_test` (compile.rs lines 7-40): create a
workspace, generate `lib.rs`, compile it with rustc in test mode; on a
non-zero exit, dump the generated source with `cat` (whose own spawn
failure aborts with the dump's message) and then fail the assertion.
The workspace destructor runs on every return and on every unwind, so
each exit path ends with `DroppedWorkspace` once the workspace exists;
that drop-on-unwind behavior is Rust scope semantics, not code in the
excerpt. -/
def rust_test (env : BuildEnv) : List Event × Outcome Unit :=
  if !env.tempdir_ok then ([], .panicked "create tempdir")
  else if !env.create_ok then
    ([Event.CreatedWorkspace, Event.DroppedWorkspace], .panicked "create file")
  else if !env.codegen_ok then
    ([Event.CreatedWorkspace, Event.DroppedWorkspace], .panicked "lucet_idl codegen")
  else
    match env.compile_status with
    | none =>
      ([Event.CreatedWorkspace, Event.WroteGeneratedSource "lib.rs",
        Event.RanCommand "rustc", Event.DroppedWorkspace], .panicked "run rustc")
    | some true =>
      ([Event.CreatedWorkspace, Event.WroteGeneratedSource "lib.rs",
        Event.RanCommand "rustc", Event.DroppedWorkspace], .success ())
    | some false =>
      match env.dump_status with
      | none =>
        ([Event.CreatedWorkspace, Event.WroteGeneratedSource "lib.rs",
          Event.RanCommand "rustc", Event.RanCommand "cat", Event.DroppedWorkspace],
         .panicked "debug output")
      | some _ =>
        ([Event.CreatedWorkspace, Event.WroteGeneratedSource "lib.rs",
          Event.RanCommand "rustc", Event.RanCommand "cat", Event.DroppedWorkspace],
         .panicked "failure to compile generated code")

/-- Embedding of `c_codegen` (compile.rs lines 95-132): like `rust_test`
but generating `example.c` and compiling it with the system C compiler;
same dump-then-assert failure protocol (lines 109-124). -/
def c_codegen (env : BuildEnv) : List Event × Outcome Unit :=
  if !env.tempdir_ok then ([], .panicked "create tempdir")
  else if !env.create_ok then
    ([Event.CreatedWorkspace, Event.DroppedWorkspace], .panicked "create file")
  else if !env.codegen_ok then
    ([Event.CreatedWorkspace, Event.DroppedWorkspace], .panicked "lucet_idl codegen")
  else
    match env.compile_status with
    | none =>
      ([Event.CreatedWorkspace, Event.WroteGeneratedSource "example.c",
        Event.RanCommand "cc", Event.DroppedWorkspace], .panicked "run cc")
    | some true =>
      ([Event.CreatedWorkspace, Event.WroteGeneratedSource "example.c",
        Event.RanCommand "cc", Event.DroppedWorkspace], .success ())
    | some false =>
      match env.dump_status with
      | none =>
        ([Event.CreatedWorkspace, Event.WroteGeneratedSource "example.c",
          Event.RanCommand "cc", Event.RanCommand "cat", Event.DroppedWorkspace],
         .panicked "debug output")
      | some _ =>
        ([Event.CreatedWorkspace, Event.WroteGeneratedSource "example.c",
          Event.RanCommand "cc", Event.RanCommand "cat", Event.DroppedWorkspace],
         .panicked "failure to compile generated code")

/-- Embedding of `rust_wasm_codegen` (compile.rs lines 42-93): write the
fixed driver `main.rs`, generate `idl.rs`, compile to a wasm module, and
on success read the module back as the returned artifact; same
dump-then-assert failure protocol, and the same destructor-based
teardown on every exit path. -/
def rust_wasm_codegen (env : BuildEnv) : List Event × Outcome (List Nat) :=
  if !env.tempdir_ok then ([], .panicked "create tempdir")
  else if !env.create_main_ok then
    ([Event.CreatedWorkspace, Event.DroppedWorkspace], .panicked "create main")
  else if !env.write_main_ok then
    ([Event.CreatedWorkspace, Event.DroppedWorkspace], .panicked "write contents of main")
  else if !env.create_ok then
    ([Event.CreatedWorkspace, Event.WroteDriver, Event.DroppedWorkspace],
     .panicked "create file")
  else if !env.codegen_ok then
    ([Event.CreatedWorkspace, Event.WroteDriver, Event.DroppedWorkspace],
     .panicked "lucet_idl codegen")
  else
    match env.compile_status with
    | none =>
      ([Event.CreatedWorkspace, Event.WroteDriver, Event.WroteGeneratedSource "idl.rs",
        Event.RanCommand "rustc", Event.DroppedWorkspace], .panicked "run rustc")
    | some true =>
      if !env.open_wasm_ok then
        ([Event.CreatedWorkspace, Event.WroteDriver, Event.WroteGeneratedSource "idl.rs",
          Event.RanCommand "rustc", Event.DroppedWorkspace], .panicked "open wasm file")
      else
        match env.read_wasm with
        | none =>
          ([Event.CreatedWorkspace, Event.WroteDriver, Event.WroteGeneratedSource "idl.rs",
            Event.RanCommand "rustc", Event.DroppedWorkspace], .panicked "read wasm file")
        | some buf =>
          ([Event.CreatedWorkspace, Event.WroteDriver, Event.WroteGeneratedSource "idl.rs",
            Event.RanCommand "rustc", Event.ReadArtifact, Event.DroppedWorkspace],
           .success buf)
    | some false =>
      match env.dump_status with
      | none =>
        ([Event.CreatedWorkspace, Event.WroteDriver, Event.WroteGeneratedSource "idl.rs",
          Event.RanCommand "rustc", Event.RanCommand "cat", Event.DroppedWorkspace],
         .panicked "debug output")
      | some _ =>
        ([Event.CreatedWorkspace, Event.WroteDriver, Event.WroteGeneratedSource "idl.rs",
          Event.RanCommand "rustc", Event.RanCommand "cat", Event.DroppedWorkspace],
         .panicked "failure to compile generated code")

/-- A trace releases its workspace when, once the workspace was created,
the last recorded action is the workspace teardown. -/
def releasedOn (t : List Event) : Prop :=
  Event.CreatedWorkspace ∈ t → t.getLast? = some Event.DroppedWorkspace

instance (t : List Event) : Decidable (releasedOn t) := by
  unfold releasedOn
  infer_instance

/-- Argument set with only the signing flag raised and no key paths. -/
def mSignOnly : ArgMatches :=
  { input := [], output := none, bindings := [], emit := none, builtins := none,
    min_reserved_size := none, max_reserved_size := none, reserved_size := none,
    guard_size := none, opt_level := none, target_cpu := none, target_feature := [],
    keygen := false, sign := true, verify := false, sk_path := none, pk_path := none,
    count_instructions := false }

/-- Argument set with only the verification flag raised and no key paths. -/
def mVerifyOnly : ArgMatches :=
  { mSignOnly with sign := false, verify := true }

/-- The options value assembled from `mSignOnly`. -/
def oSignOnly : Options :=
  { output := "a.out", input := [], codegen := CodegenOutput.SharedObj,
    binding_files := [], builtins_path := none, min_reserved_size := none,
    max_reserved_size := none, reserved_size := none, guard_size := none,
    opt_level := OptLevel.Standard, cpu_features := CpuFeatures.DetectCpuid,
    keygen := false, sign := true, verify := false, pk_path := none,
    sk_path := none, count_instructions := false }

/-- Argument set supplying an exact reserved size together with a
minimum and a maximum reserved size. -/
def mC5 : ArgMatches :=
  { mSignOnly with
    sign := false
    min_reserved_size := some "4096"
    max_reserved_size := some "8192"
    reserved_size := some "12288" }

/-- The options value assembled from `mC5`. -/
def oC5 : Options :=
  { oSignOnly with
    sign := false
    min_reserved_size := some 4096
    max_reserved_size := some 8192
    reserved_size := some 12288 }

/-- A sample default-settings record for the downstream consumer. -/
def d0 : HeapSettings :=
  { min_reserved_size := 1048576, max_reserved_size := 4294967296,
    guard_size := 2147483648 }

/-- Argument set leaving every size option unspecified. -/
def mC6 : ArgMatches :=
  { mSignOnly with sign := false }

/-- The options value assembled from `mC6`. -/
def oC6 : Options :=
  { oSignOnly with sign := false }

/-- Environment of a fully successful build-verification run. -/
def envHappy : BuildEnv :=
  { tempdir_ok := true, create_ok := true, codegen_ok := true,
    compile_status := some true, dump_status := some true,
    create_main_ok := true, write_main_ok := true, open_wasm_ok := true,
    read_wasm := some [0, 97, 115, 109] }

/-- Environment where the toolchain exits non-zero and the diagnostic
dump command cannot even be spawned. -/
def envDumpSpawnFail : BuildEnv :=
  { envHappy with compile_status := some false, dump_status := none }

/-- Environment where the toolchain exits non-zero and the diagnostic
dump command runs. -/
def envDumpRan : BuildEnv :=
  { envHappy with compile_status := some false, dump_status := some true }


/-! ### Supporting lemmas -/

theorem RunResult.bind_eq_ok {α β : Type} {x : RunResult α} {f : α → RunResult β}
    {b : β} : x.bind f = .ok b ↔ ∃ a, x = .ok a ∧ f a = .ok b := by
  cases x <;> simp [RunResult.bind]

theorem featureOfName_eq_some {n : String} {ft : Feature}
    (h : featureOfName n = some ft) : n = nameOf ft := by
  unfold featureOfName at h
  split at h <;> simp_all [nameOf] <;> subst h <;> rfl

theorem applyNamed_nameOf (sfs : SpecificFeatures) (ft : Feature) (b : Bool) (f : String) :
    applyNamed sfs (nameOf ft) b f = .ok (setFeature sfs ft b) := by
  cases ft <;> rfl

theorem applyNamed_none {n : String} (sfs : SpecificFeatures) (b : Bool) (f : String)
    (h : featureOfName n = none) :
    applyNamed sfs n b f
      = .panicked ("invalid feature string despite passing validation: " ++ f) := by
  unfold applyNamed
  split <;> simp_all [featureOfName]

theorem applyFeature_parsed {t : String} {b : Bool} {ft : Feature}
    (h : parseToken t = some (b, ft)) (sfs : SpecificFeatures) :
    applyFeature sfs t = .ok (setFeature sfs ft b) := by
  unfold parseToken at h
  unfold applyFeature
  split at h
  case _ rest heq =>
    rcases Option.map_eq_some'.mp h with ⟨ft2, hf, hpair⟩
    cases hpair
    rw [featureOfName_eq_some hf, applyNamed_nameOf]
  case _ rest heq =>
    rcases Option.map_eq_some'.mp h with ⟨ft2, hf, hpair⟩
    cases hpair
    rw [featureOfName_eq_some hf, applyNamed_nameOf]
  case _ => exact absurd h (by simp)

theorem parseToken_none_head {t : String} (h : parseToken t = none)
    (sfs : SpecificFeatures) :
    applyFeature sfs t
      = .panicked ("invalid feature string despite passing validation: " ++ t) := by
  unfold parseToken at h
  unfold applyFeature
  split at h
  case _ rest heq =>
    rcases hf : featureOfName (String.mk rest) with _ | ft
    · exact applyNamed_none sfs true t hf
    · rw [hf] at h; simp at h
  case _ rest heq =>
    rcases hf : featureOfName (String.mk rest) with _ | ft
    · exact applyNamed_none sfs false t hf
    · rw [hf] at h; simp at h
  case _ => rfl

theorem applyFeatures_ok {ts : List String}
    (h : ∀ t ∈ ts, (parseToken t).isSome) (sfs : SpecificFeatures) :
    applyFeatures sfs ts = .ok (ts.foldl applyTokenSpec sfs) := by
  induction ts generalizing sfs with
  | nil => rfl
  | cons t rest ih =>
    have ht : (parseToken t).isSome := h t (List.mem_cons_self t rest)
    rcases hP : parseToken t with _ | ⟨b, ft⟩
    · rw [hP] at ht; simp at ht
    · have hA := applyFeature_parsed hP sfs
      unfold applyFeatures
      rw [hA]
      simp only [RunResult.bind]
      rw [ih (fun u hu => h u (List.mem_cons_of_mem t hu))]
      simp [applyTokenSpec, hP]

theorem applyFeatures_panics {ts : List String}
    (h : ∃ t ∈ ts, parseToken t = none) (sfs : SpecificFeatures) :
    ∃ m, applyFeatures sfs ts = .panicked m := by
  induction ts generalizing sfs with
  | nil => rcases h with ⟨t, ht, _⟩; cases ht
  | cons t rest ih =>
    rcases hP : parseToken t with _ | ⟨b, ft⟩
    · refine ⟨"invalid feature string despite passing validation: " ++ t, ?_⟩
      unfold applyFeatures
      rw [parseToken_none_head hP sfs]
      rfl
    · rcases h with ⟨u, hu, hun⟩
      rcases List.mem_cons.mp hu with rfl | hu2
      · rw [hP] at hun; cases hun
      · have hA := applyFeature_parsed hP sfs
        have h2 : applyFeatures sfs (t :: rest)
            = applyFeatures (setFeature sfs ft b) rest := by
          conv_lhs => unfold applyFeatures
          rw [hA]
          rfl
        rw [h2]
        exact ih ⟨u, hu2, hun⟩ _

theorem applyFeature_ne_err (sfs : SpecificFeatures) (t : String) (m : String) :
    applyFeature sfs t ≠ .err m := by
  unfold applyFeature
  split
  · unfold applyNamed; split <;> simp
  · unfold applyNamed; split <;> simp
  · simp

theorem applyFeatures_ne_err (ts : List String) (sfs : SpecificFeatures) (m : String) :
    applyFeatures sfs ts ≠ .err m := by
  induction ts generalizing sfs with
  | nil => simp [applyFeatures]
  | cons t rest ih =>
    unfold applyFeatures
    rcases hA : applyFeature sfs t with sfs2 | e | p <;> simp only [RunResult.bind]
    · exact ih sfs2
    · exact absurd hA (applyFeature_ne_err sfs t e)
    · simp

theorem resolveTargetCpu_ok {cpu : Option String} (h : presetOk cpu) :
    resolveTargetCpu cpu = .ok (presetOf cpu) := by
  cases cpu with
  | none => rfl
  | some s =>
    have hm : toLowercase s ∈ presetNames := h
    simp only [presetNames, List.mem_cons, List.not_mem_nil, or_false] at hm
    rcases hm with h1 | h1 | h1 | h1 | h1 | h1 | h1 | h1 <;>
      simp [resolveTargetCpu, presetOf, h1]

theorem from_args_ok_elim {cpuInto : TargetCpu → SpecificFeatures}
    {m : ArgMatches} {o : Options}
    (h : Options.from_args cpuInto m = .ok o) :
    ∃ codegen minr maxr resr guardr opt cf,
      emit_codegen m.emit = .ok codegen
      ∧ parse_size_opt m.min_reserved_size = .ok minr
      ∧ parse_size_opt m.max_reserved_size = .ok maxr
      ∧ parse_size_opt m.reserved_size = .ok resr
      ∧ parse_size_opt m.guard_size = .ok guardr
      ∧ opt_level_of m.opt_level = .ok opt
      ∧ cpu_features_from_args cpuInto m.target_cpu m.target_feature = .ok cf
      ∧ o = { output := m.output.getD "a.out"
              input := m.input
              codegen := codegen
              binding_files := m.bindings
              builtins_path := m.builtins
              min_reserved_size := minr
              max_reserved_size := maxr
              reserved_size := resr
              guard_size := guardr
              opt_level := opt
              cpu_features := cf
              keygen := m.keygen
              sign := m.sign
              verify := m.verify
              pk_path := m.pk_path
              sk_path := m.sk_path
              count_instructions := m.count_instructions } := by
  unfold Options.from_args at h
  rcases RunResult.bind_eq_ok.mp h with ⟨codegen, h1, h⟩
  rcases RunResult.bind_eq_ok.mp h with ⟨minr, h2, h⟩
  rcases RunResult.bind_eq_ok.mp h with ⟨maxr, h3, h⟩
  rcases RunResult.bind_eq_ok.mp h with ⟨resr, h4, h⟩
  rcases RunResult.bind_eq_ok.mp h with ⟨guardr, h5, h⟩
  rcases RunResult.bind_eq_ok.mp h with ⟨opt, h6, h⟩
  rcases RunResult.bind_eq_ok.mp h with ⟨cf, h7, h⟩
  refine ⟨codegen, minr, maxr, resr, guardr, opt, cf, h1, h2, h3, h4, h5, h6, h7, ?_⟩
  cases h
  rfl

theorem parse_size_opt_inv {os : Option String} {s : String} {n : Nat} {r : Option Nat}
    (h1 : os = some s) (h2 : parse_humansized s = .ok n)
    (h : parse_size_opt os = .ok r) : r = some n := by
  rw [h1] at h
  simp only [parse_size_opt, h2, RunResult.bind] at h
  simp at h
  exact h.symm

theorem takeDigits_append {cs us : List Char} (h1 : cs.all Char.isDigit)
    (h2 : us.head?.all (fun c => !c.isDigit) = true) :
    takeDigits (cs ++ us) = (cs, us) := by
  induction cs with
  | nil =>
    simp only [List.nil_append]
    cases us with
    | nil => rfl
    | cons u r =>
      simp only [List.head?_cons, Option.all_some] at h2
      have hu : u.isDigit = false := by
        cases hd : u.isDigit
        · rfl
        · rw [hd] at h2; cases h2
      simp [takeDigits, hu]
  | cons c cs ih =>
    simp only [List.all_cons, Bool.and_eq_true] at h1
    have ih2 := ih h1.2
    simp [takeDigits, h1.1, List.cons_append, ih2]

theorem multipleBytes_shape {u : String} {mult : Nat} (h : multipleBytes u = some mult) :
    u.data ≠ [] ∧ u.data.head?.all (fun c => !c.isDigit) = true
    ∧ u.data.head? ≠ some ' ' := by
  unfold multipleBytes at h
  split at h <;> simp_all

theorem parse_humansized_digits {desc : String} (hne : desc.data ≠ [])
    (hdig : desc.data.all Char.isDigit = true)
    (hlt : digitsToNat desc.data < 2 ^ 64) :
    parse_humansized desc = .ok (digitsToNat desc.data) := by
  have ht : takeDigits desc.data = (desc.data, []) := by
    have h := @takeDigits_append desc.data [] hdig (by simp)
    simpa using h
  obtain ⟨c, cs, hd⟩ : ∃ c cs, desc.data = c :: cs := by
    cases hdc : desc.data with
    | nil => exact absurd hdc hne
    | cons c cs => exact ⟨c, cs, rfl⟩
  have hisEmpty : desc.data.isEmpty = false := by
    rw [hd]; rfl
  unfold parse_humansized human_size_parse
  rw [ht, hd]
  simp only []
  unfold parse_u64
  rw [hisEmpty, hdig]
  rw [← hd]
  rw [if_pos hlt]
  simp

theorem parse_humansized_suffixed {v u : String} {mult : Nat}
    (hne : v.data ≠ []) (hdig : v.data.all Char.isDigit = true)
    (hmu : multipleBytes u = some mult) :
    parse_humansized (v ++ u) = .ok (digitsToNat v.data * mult) := by
  obtain ⟨hu1, hu2, hu3⟩ := multipleBytes_shape hmu
  have ht : takeDigits ((v ++ u).data) = (v.data, u.data) := by
    rw [String.data_append]
    exact takeDigits_append hdig hu2
  obtain ⟨c, cs, hvd⟩ : ∃ c cs, v.data = c :: cs := by
    cases hdc : v.data with
    | nil => exact absurd hdc hne
    | cons c cs => exact ⟨c, cs, rfl⟩
  obtain ⟨uc, ur, hud⟩ : ∃ uc ur, u.data = uc :: ur := by
    cases hdc : u.data with
    | nil => exact absurd hdc hu1
    | cons uc ur => exact ⟨uc, ur, rfl⟩
  have huc : uc ≠ ' ' := by
    intro hsp
    rw [hud, hsp] at hu3
    exact hu3 rfl
  have hmk : String.mk (uc :: ur) = u := by
    rw [← hud]
  have hmku : multipleBytes (String.mk (uc :: ur)) = some mult := by
    rw [hmk]; exact hmu
  have hhd : (uc :: ur).head? ≠ some ' ' := by
    simp only [List.head?_cons]
    intro hc
    exact huc (Option.some.injEq _ _ ▸ hc)
  unfold parse_humansized human_size_parse
  rw [ht, hvd, hud]
  simp only [if_neg hhd]
  rw [← hvd]
  simp [hmku]

theorem parse_humansized_malformed {s : String}
    (h : s.data.head?.all (fun c => !c.isDigit) = true) :
    (parse_humansized s).isErr = true := by
  cases hsd : s.data with
  | nil =>
    unfold parse_humansized human_size_parse
    rw [hsd]
    rfl
  | cons c cs =>
    rw [hsd] at h
    simp only [List.head?_cons, Option.all_some] at h
    have hc : c.isDigit = false := by
      cases hd : c.isDigit
      · rfl
      · rw [hd] at h; cases h
    have ht : takeDigits (c :: cs) = ([], c :: cs) := by
      simp [takeDigits, hc]
    unfold parse_humansized human_size_parse
    rw [hsd, ht]
    rfl


/-! ### The claims -/

/-- C1: for valid inputs, `cpu_features_from_args` returns `DetectCpuid`
(the host-detection mode) exactly when no preset and no override tokens
were supplied; otherwise it returns `Specify` of the preset's baseline
feature set (the baseline preset when no preset was given) updated by
applying each override token in input order. Holds for every baseline
table `cpuInto`. -/
theorem claim1 (cpuInto : TargetCpu → SpecificFeatures)
    (cpu : Option String) (features : List String)
    (hp : presetOk cpu) (hf : ∀ t ∈ features, (parseToken t).isSome) :
    (cpu_features_from_args cpuInto cpu features = .ok CpuFeatures.DetectCpuid
       ↔ (cpu = none ∧ features = []))
    ∧ (¬(cpu = none ∧ features = []) →
        cpu_features_from_args cpuInto cpu features
          = .ok (CpuFeatures.Specify
              (features.foldl applyTokenSpec (cpuInto (presetOf cpu))))) := by
  have hcond : (cpu.isNone && features.length == 0) = true
      ↔ (cpu = none ∧ features = []) := by
    cases cpu <;> cases features <;> simp
  by_cases hc : cpu = none ∧ features = []
  · constructor
    · constructor
      · intro _; exact hc
      · intro _
        unfold cpu_features_from_args
        rw [if_pos (hcond.mpr hc)]
    · intro hn; exact absurd hc hn
  · have hcf : (cpu.isNone && features.length == 0) = false := by
      rcases Bool.eq_false_or_eq_true (cpu.isNone && features.length == 0) with h | h
      · exact absurd (hcond.mp h) hc
      · exact h
    have hmain : cpu_features_from_args cpuInto cpu features
        = .ok (CpuFeatures.Specify
            (features.foldl applyTokenSpec (cpuInto (presetOf cpu)))) := by
      unfold cpu_features_from_args
      rw [hcf]
      simp only [Bool.false_eq_true, if_false]
      rw [resolveTargetCpu_ok hp]
      simp only [RunResult.bind]
      rw [applyFeatures_ok hf (cpuInto (presetOf cpu))]
    constructor
    · rw [hmain]
      constructor
      · intro h; cases h
      · intro h; exact absurd h hc
    · intro _; exact hmain

/-- C1 witness: concrete instance with preset `haswell` and one token. -/
theorem claim1_witness :
    presetOk (some "haswell")
    ∧ (cpu_features_from_args (fun _ => allOff) (some "haswell") ["+sse3"]
         = .ok CpuFeatures.DetectCpuid
       ↔ ((some "haswell" : Option String) = none ∧ (["+sse3"] : List String) = [])) :=
  ⟨by decide,
   (claim1 (fun _ => allOff) (some "haswell") ["+sse3"] (by decide) (by decide)).1⟩

/-- C2 counterexample: `Options.from_args` succeeds, rather than
returning a configuration error, when the sign flag is set with no
secret-key path, and likewise when the verify flag is set with no
public-key path. -/
theorem claim2_counterexample :
    mSignOnly.sign = true ∧ mSignOnly.sk_path = none
    ∧ (Options.from_args (fun _ => allOff) mSignOnly).isOk = true
    ∧ mVerifyOnly.verify = true ∧ mVerifyOnly.pk_path = none
    ∧ (Options.from_args (fun _ => allOff) mVerifyOnly).isOk = true := by
  decide

/-- C2 amended: `Options::from_args` performs no signing-flag/key-path
consistency validation at all; it copies the keygen, sign and verify
flags and the optional key paths into the assembled options unchanged,
leaving any missing-key error to the downstream signing component. -/
theorem claim2_amended (cpuInto : TargetCpu → SpecificFeatures)
    (m : ArgMatches) (o : Options) (h : Options.from_args cpuInto m = .ok o) :
    o.keygen = m.keygen ∧ o.sign = m.sign ∧ o.verify = m.verify
    ∧ o.sk_path = m.sk_path ∧ o.pk_path = m.pk_path := by
  rcases from_args_ok_elim h with ⟨c, mi, ma, re, gu, op, cf, h1, h2, h3, h4, h5, h6, h7, ho⟩
  subst ho
  exact ⟨rfl, rfl, rfl, rfl, rfl⟩

/-- C2 witness: the flag/path pass-through at the concrete sign-only
argument set. -/
theorem claim2_amended_witness :
    Options.from_args (fun _ => allOff) mSignOnly = .ok oSignOnly
    ∧ (oSignOnly.keygen = mSignOnly.keygen ∧ oSignOnly.sign = mSignOnly.sign
       ∧ oSignOnly.verify = mSignOnly.verify ∧ oSignOnly.sk_path = mSignOnly.sk_path
       ∧ oSignOnly.pk_path = mSignOnly.pk_path) :=
  ⟨by decide, claim2_amended (fun _ => allOff) mSignOnly oSignOnly (by decide)⟩

/-- C3 counterexample: the unknown-preset error message for `notacpu`
names the invalid value but does not mention a single accepted preset
name, so it does not name the accepted set. -/
theorem claim3_counterexample :
    cpu_features_from_args (fun _ => allOff) (some "notacpu") []
      = .err "unsupported CPU: notacpu"
    ∧ occursIn "notacpu" "unsupported CPU: notacpu" = true
    ∧ presetNames.all (fun p => occursIn p "unsupported CPU: notacpu") = false
    ∧ presetNames.any (fun p => occursIn p "unsupported CPU: notacpu") = false := by
  decide

/-- C3 amended: for every preset name outside the fixed preset set (up
to lowercasing), the resolver produces a configuration error and no
`CpuFeatures` value; the message is `unsupported CPU: ` followed by the
invalid value, naming the invalid value but not the accepted set. -/
theorem claim3_amended (cpuInto : TargetCpu → SpecificFeatures)
    (s : String) (features : List String) (h : toLowercase s ∉ presetNames) :
    cpu_features_from_args cpuInto (some s) features = .err ("unsupported CPU: " ++ s)
    ∧ occursIn s ("unsupported CPU: " ++ s) = true := by
  constructor
  · have hres : resolveTargetCpu (some s) = .err ("unsupported CPU: " ++ s) := by
      unfold resolveTargetCpu
      split <;> simp_all [presetNames]
    unfold cpu_features_from_args
    simp only [Option.isNone_some, Bool.false_and, Bool.false_eq_true, if_false]
    rw [hres]
    rfl
  · unfold occursIn
    simp only [List.any_eq_true, List.mem_range]
    refine ⟨"unsupported CPU: ".data.length, ?_, ?_⟩
    · have hlen : ("unsupported CPU: " ++ s).data.length
          = "unsupported CPU: ".data.length + s.data.length := by
        rw [String.data_append]
        exact List.length_append _ _
      omega
    · rw [show ("unsupported CPU: " ++ s).data
          = "unsupported CPU: ".data ++ s.data from String.data_append _ _]
      simp

/-- C3 witness: the amended statement at the concrete name `notacpu`. -/
theorem claim3_amended_witness :
    (toLowercase "notacpu" ∉ presetNames)
    ∧ cpu_features_from_args (fun _ => allOff) (some "notacpu") ["+avx"]
        = .err "unsupported CPU: notacpu" :=
  ⟨by decide,
   (claim3_amended (fun _ => allOff) "notacpu" ["+avx"] (by decide)).1⟩

/-- C4: preset `haswell` with the override tokens `+avx` then `-avx`
yields a `Specify` feature set whose avx flag is disabled and whose
every other flag equals its haswell baseline value (last token wins);
holds for every baseline table `cpuInto`. -/
theorem claim4 (cpuInto : TargetCpu → SpecificFeatures) :
    cpu_features_from_args cpuInto (some "haswell") ["+avx", "-avx"]
      = .ok (CpuFeatures.Specify
          { cpuInto TargetCpu.Haswell with has_avx := false }) := rfl

/-- C9: with a valid preset, well-formed override tokens (a sign
character followed by a known feature name) never reach the resolver's
abort branches; and when some token is malformed, the resolver aborts (a
contract violation) and in particular does not return a recoverable
configuration error. -/
theorem claim9 (cpuInto : TargetCpu → SpecificFeatures)
    (cpu : Option String) (features : List String) (hp : presetOk cpu) :
    ((∀ t ∈ features, (parseToken t).isSome) →
       ∀ m, cpu_features_from_args cpuInto cpu features ≠ .panicked m)
    ∧ ((∃ t ∈ features, parseToken t = none) →
       (∃ m, cpu_features_from_args cpuInto cpu features = .panicked m)
       ∧ ∀ m, cpu_features_from_args cpuInto cpu features ≠ .err m) := by
  constructor
  · intro hf m
    by_cases hc : (cpu.isNone && features.length == 0) = true
    · unfold cpu_features_from_args
      rw [if_pos hc]
      simp
    · unfold cpu_features_from_args
      rw [if_neg (by simpa using hc)]
      rw [resolveTargetCpu_ok hp]
      simp only [RunResult.bind]
      rw [applyFeatures_ok hf (cpuInto (presetOf cpu))]
      simp [RunResult.bind]
  · intro hbad
    have hne : features ≠ [] := by
      rcases hbad with ⟨t, ht, _⟩
      intro hnil
      rw [hnil] at ht
      cases ht
    have hc : (cpu.isNone && features.length == 0) = false := by
      cases cpu <;> cases features <;> simp_all
    rcases applyFeatures_panics hbad (cpuInto (presetOf cpu)) with ⟨m, hm⟩
    have hrun : cpu_features_from_args cpuInto cpu features = .panicked m := by
      unfold cpu_features_from_args
      rw [hc]
      simp only [Bool.false_eq_true, if_false]
      rw [resolveTargetCpu_ok hp]
      simp only [RunResult.bind]
      rw [hm]
    constructor
    · exact ⟨m, hrun⟩
    · intro m2
      rw [hrun]
      simp

/-- C9 witness: the token `avx` (no sign character) is malformed, and
the resolver's outcome on it is not a recoverable configuration error. -/
theorem claim9_witness :
    presetOk (some "haswell")
    ∧ ((["avx"] : List String).all (fun t => (parseToken t).isNone))
    ∧ cpu_features_from_args (fun _ => allOff) (some "haswell") ["avx"]
        ≠ .err "unsupported CPU: haswell" :=
  ⟨by decide, by decide,
   ((claim9 (fun _ => allOff) (some "haswell") ["avx"] (by decide)).2
      ⟨"avx", by decide, by decide⟩).2 "unsupported CPU: haswell"⟩

/-- C10: preset-name matching is case-insensitive; a name whose
lowercasing is a known preset resolves to the same result as the
lowercase name, and never to a configuration error. -/
theorem claim10 (cpuInto : TargetCpu → SpecificFeatures)
    (s : String) (features : List String) (hm : toLowercase s ∈ presetNames) :
    cpu_features_from_args cpuInto (some s) features
      = cpu_features_from_args cpuInto (some (toLowercase s)) features
    ∧ ∀ m, cpu_features_from_args cpuInto (some s) features ≠ .err m := by
  have hres : resolveTargetCpu (some s) = resolveTargetCpu (some (toLowercase s)) := by
    have hm2 := hm
    simp only [presetNames, List.mem_cons, List.not_mem_nil, or_false] at hm2
    rcases hm2 with h1 | h1 | h1 | h1 | h1 | h1 | h1 | h1 <;>
      simp only [resolveTargetCpu, h1] <;> rfl
  have hok : resolveTargetCpu (some s) = .ok (presetOf (some s)) :=
    resolveTargetCpu_ok hm
  constructor
  · unfold cpu_features_from_args
    simp only [Option.isNone_some, Bool.false_and, Bool.false_eq_true, if_false]
    rw [hres]
  · intro m
    unfold cpu_features_from_args
    simp only [Option.isNone_some, Bool.false_and, Bool.false_eq_true, if_false]
    rw [hok]
    simp only [RunResult.bind]
    rcases hA : applyFeatures (cpuInto (presetOf (some s))) features with sfs | e | p
    · simp [RunResult.bind]
    · exact absurd hA (applyFeatures_ne_err features _ e)
    · simp [RunResult.bind]

/-- C10 witness: `HasWell` resolves like `haswell`. -/
theorem claim10_witness :
    (toLowercase "HasWell" ∈ presetNames)
    ∧ cpu_features_from_args (fun _ => allOff) (some "HasWell") ["-avx"]
        = cpu_features_from_args (fun _ => allOff) (some (toLowercase "HasWell")) ["-avx"] :=
  ⟨by decide,
   (claim10 (fun _ => allOff) "HasWell" ["-avx"] (by decide)).1⟩


/-- C5: when an exact reserved size is supplied together with min and
max reserved sizes, the assembled options retain all three parsed values
unchanged, while the effective heap settings derived downstream use the
exact size for both the minimum and the maximum reserved size. -/
theorem claim5 (cpuInto : TargetCpu → SpecificFeatures) (d : HeapSettings)
    (m : ArgMatches) (o : Options) (smin smax sres : String) (nmin nmax nres : Nat)
    (h : Options.from_args cpuInto m = .ok o)
    (hmin : m.min_reserved_size = some smin) (hpmin : parse_humansized smin = .ok nmin)
    (hmax : m.max_reserved_size = some smax) (hpmax : parse_humansized smax = .ok nmax)
    (hres : m.reserved_size = some sres) (hpres : parse_humansized sres = .ok nres) :
    o.min_reserved_size = some nmin
    ∧ o.max_reserved_size = some nmax
    ∧ o.reserved_size = some nres
    ∧ (effectiveHeap d o).min_reserved_size = nres
    ∧ (effectiveHeap d o).max_reserved_size = nres := by
  rcases from_args_ok_elim h with ⟨c, mi, ma, re, gu, op, cf, h1, h2, h3, h4, h5, h6, h7, ho⟩
  have hmi : mi = some nmin := parse_size_opt_inv hmin hpmin h2
  have hma : ma = some nmax := parse_size_opt_inv hmax hpmax h3
  have hre : re = some nres := parse_size_opt_inv hres hpres h4
  subst ho hmi hma hre
  refine ⟨rfl, rfl, rfl, ?_, ?_⟩ <;> simp [effectiveHeap]

/-- C5 witness: concrete sizes 4096, 8192 and exact 12288; all three are
retained and the effective heap uses 12288 for both bounds. -/
theorem claim5_witness :
    Options.from_args (fun _ => allOff) mC5 = .ok oC5
    ∧ (oC5.min_reserved_size = some 4096 ∧ oC5.max_reserved_size = some 8192
       ∧ oC5.reserved_size = some 12288
       ∧ (effectiveHeap d0 oC5).min_reserved_size = 12288
       ∧ (effectiveHeap d0 oC5).max_reserved_size = 12288) :=
  ⟨by decide,
   claim5 (fun _ => allOff) d0 mC5 oC5 "4096" "8192" "12288" 4096 8192 12288
     (by decide) rfl (by decide) rfl (by decide) rfl (by decide)⟩

/-- C6: size parsing accepts bare decimal byte counts and unit-suffixed
magnitudes, converting both to byte counts; a malformed size string (one
not starting with a digit) is a configuration error; and an unspecified
size is kept unset in the assembled options so that the declared default
value applies in the effective settings. -/
theorem claim6 :
    (∀ desc : String, desc.data ≠ [] → desc.data.all Char.isDigit = true →
       digitsToNat desc.data < 2 ^ 64 →
       parse_humansized desc = .ok (digitsToNat desc.data))
    ∧ (∀ v u : String, ∀ mult : Nat, v.data ≠ [] → v.data.all Char.isDigit = true →
       multipleBytes u = some mult →
       parse_humansized (v ++ u) = .ok (digitsToNat v.data * mult))
    ∧ (∀ s : String, s.data.head?.all (fun c => !c.isDigit) = true →
       (parse_humansized s).isErr = true)
    ∧ (∀ (cpuInto : TargetCpu → SpecificFeatures) (d : HeapSettings)
         (m : ArgMatches) (o : Options),
       Options.from_args cpuInto m = .ok o → m.guard_size = none →
       o.guard_size = none ∧ (effectiveHeap d o).guard_size = d.guard_size) := by
  refine ⟨fun desc h1 h2 h3 => parse_humansized_digits h1 h2 h3,
          fun v u mult h1 h2 h3 => parse_humansized_suffixed h1 h2 h3,
          fun s h1 => parse_humansized_malformed h1,
          fun cpuInto d m o h hg => ?_⟩
  rcases from_args_ok_elim h with ⟨c, mi, ma, re, gu, op, cf, h1, h2, h3, h4, h5, h6, h7, ho⟩
  have hgu : gu = none := by
    rw [hg] at h5
    simp only [parse_size_opt] at h5
    simp at h5
    exact h5.symm
  subst ho hgu
  refine ⟨rfl, ?_⟩
  simp [effectiveHeap]

/-- C6 witness: concrete parses (bare bytes, a megabyte suffix, a
malformed string) and the default guard size at an argument set leaving
every size unspecified. -/
theorem claim6_witness :
    parse_humansized "4096" = .ok 4096
    ∧ parse_humansized "4MB" = .ok 4000000
    ∧ (parse_humansized "abc").isErr = true
    ∧ (Options.from_args (fun _ => allOff) mC6 = .ok oC6
       ∧ oC6.guard_size = none
       ∧ (effectiveHeap d0 oC6).guard_size = d0.guard_size) := by
  have h6 := claim6
  refine ⟨?_, ?_, ?_, by decide, ?_, ?_⟩
  · have h := h6.1 "4096" (by decide) (by decide) (by decide)
    simpa using h
  · have h := h6.2.1 "4" "MB" 1000000 (by decide) (by decide) (by decide)
    simpa using h
  · exact h6.2.2.1 "abc" (by decide)
  · exact (h6.2.2.2 (fun _ => allOff) d0 mC6 oC6 (by decide) (by decide)).1
  · exact (h6.2.2.2 (fun _ => allOff) d0 mC6 oC6 (by decide) (by decide)).2

/-- C7 counterexample: when the toolchain exits non-zero and the
diagnostic dump command itself cannot be spawned, the run aborts with
the dump step's own message, masking the original build-failure report,
in both the C and the native-host pipelines. -/
theorem claim7_counterexample :
    (c_codegen envDumpSpawnFail).2 = .panicked "debug output"
    ∧ (c_codegen envDumpSpawnFail).2 ≠ .panicked "failure to compile generated code"
    ∧ (rust_test envDumpSpawnFail).2 = .panicked "debug output"
    ∧ (rust_test envDumpSpawnFail).2 ≠ .panicked "failure to compile generated code" := by
  decide

/-- C7 amended: on a non-zero toolchain exit the generated source is
dumped (the dump command is invoked) before any failure is signaled, and
the run never succeeds; when the dump command can be spawned (whatever
its own exit status), the original build failure is reported, but a
spawn failure of the dump command aborts with the dump's own message in
place of the original build-failure report. Stated for both the C and
the native-host pipelines. -/
theorem claim7_amended (env : BuildEnv)
    (h1 : env.tempdir_ok = true) (h2 : env.create_ok = true) (h3 : env.codegen_ok = true)
    (hcc : env.compile_status = some false) :
    ((c_codegen env).1
       = [Event.CreatedWorkspace, Event.WroteGeneratedSource "example.c",
          Event.RanCommand "cc", Event.RanCommand "cat", Event.DroppedWorkspace]
     ∧ (∀ b, env.dump_status = some b →
          (c_codegen env).2 = .panicked "failure to compile generated code")
     ∧ (env.dump_status = none → (c_codegen env).2 = .panicked "debug output")
     ∧ ∀ u, (c_codegen env).2 ≠ .success u)
    ∧ ((rust_test env).1
       = [Event.CreatedWorkspace, Event.WroteGeneratedSource "lib.rs",
          Event.RanCommand "rustc", Event.RanCommand "cat", Event.DroppedWorkspace]
     ∧ (∀ b, env.dump_status = some b →
          (rust_test env).2 = .panicked "failure to compile generated code")
     ∧ (env.dump_status = none → (rust_test env).2 = .panicked "debug output")
     ∧ ∀ u, (rust_test env).2 ≠ .success u) := by
  rcases hds : env.dump_status with _ | b <;>
    simp [c_codegen, rust_test, h1, h2, h3, hcc, hds]

/-- C7 witness: with the dump command able to run, a failed C build
dumps and then reports the original build failure. -/
theorem claim7_amended_witness :
    envDumpRan.compile_status = some false
    ∧ (c_codegen envDumpRan).2 = .panicked "failure to compile generated code" :=
  ⟨rfl, ((claim7_amended envDumpRan rfl rfl rfl rfl).1).2.1 true rfl⟩

/-- C8: in every environment, each of the three build-verification
invocations releases its workspace by the time it returns: once the
workspace-creation event appears in the trace, the trace's last event is
the workspace teardown, on every exit path including build failure and a
dump error. -/
theorem claim8 (env : BuildEnv) :
    releasedOn (rust_test env).1
    ∧ releasedOn (rust_wasm_codegen env).1
    ∧ releasedOn (c_codegen env).1 := by
  refine ⟨?_, ?_, ?_⟩
  · unfold rust_test
    repeat' split
    all_goals simp [releasedOn]
  · unfold rust_wasm_codegen
    repeat' split
    all_goals simp [releasedOn]
  · unfold c_codegen
    repeat' split
    all_goals simp [releasedOn]

/-- C8 witness: teardown is the last event of a concrete successful
run. -/
theorem claim8_witness :
    Event.CreatedWorkspace ∈ (c_codegen envHappy).1
    ∧ (c_codegen envHappy).1.getLast? = some Event.DroppedWorkspace :=
  ⟨by decide, (claim8 envHappy).2.2 (by decide)⟩

end LucetOpts
